import Mathlib

/-!
ExcelOnBrowser — verification of the core logic.

Shallow embedding of the schema-driven validation engine, the column-label
codec, the error-index lookup and the tear-geometry generator of the
ExcelOnBrowser repository, together with proofs of the specified properties.

Conventions of the embedding:
* JavaScript numbers held in cells are modelled as integers (`Int`); no
  verified property depends on fractional cell values, and integer-valued
  numbers stringify in JavaScript exactly as `Int` does here.
* The geometry code uses real-valued `Math.sin`, `Math.cos` and
  `Math.random`; these host functions are abstracted as arbitrary rational
  inputs, since every verified property holds for all of their values.
* `Date.parse` is a host builtin whose behaviour beyond ISO 8601 is
  implementation defined; it is modelled as an ISO 8601 date recogniser.
  No verified property depends on which particular strings parse as dates.
-/

/-- Source `src/types.ts`: `CellValue = string | number | boolean | null`.
The absent value (JavaScript `undefined`, from an out-of-range read) is
represented by `Option CellValue` at use sites. -/
inductive CellValue where
  | str (s : String)
  | num (n : Int)
  | bool (b : Bool)
  | null
deriving DecidableEq, Repr

/-- Source `src/types.ts`: `enum ColumnType`. -/
inductive ColumnType where
  | STRING
  | NUMBER
  | BOOLEAN
  | DATE
deriving DecidableEq, Repr

/-- Source `src/types.ts`: `interface ColumnSchema`. -/
structure ColumnSchema where
  index : Nat
  name : String
  type : ColumnType
  required : Bool
deriving DecidableEq, Repr

/-- Source `src/types.ts`: `interface ValidationError`. -/
structure ValidationError where
  rowIndex : Nat
  colIndex : Nat
  message : String
deriving DecidableEq, Repr

/-- A row of cells (`RowData = CellValue[]`). -/
abbrev RowData := List CellValue

/-- The single-quote character, used inside error message texts. -/
def quoteStr : String := (Char.ofNat 39).toString

/-- Source `src/constants` (part_000): the `ALPHABET` string of the 26
upper-case letters A through Z. -/
def ALPHABET : List Char :=
  ['A', 'B', 'C', 'D', 'E', 'F', 'G', 'H', 'I', 'J', 'K', 'L', 'M',
   'N', 'O', 'P', 'Q', 'R', 'S', 'T', 'U', 'V', 'W', 'X', 'Y', 'Z']

/-- Subscript read `ALPHABET[k]`, defined for every in-range subscript. -/
def alphaChar (k : Nat) : Char := ALPHABET.getD k 'A'

/-- Source `src/constants` (part_000): `getColumnLabel`.  The JavaScript loop
`while (i >= 0) { label = ALPHABET[i % 26] + label; i = floor(i/26) - 1 }`
becomes structural recursion: the loop continues exactly when
`floor(i/26) - 1 >= 0`, i.e. when `i >= 26`.  Termination: for `26 ≤ i`
the next value `i / 26 - 1` is strictly smaller than `i`. -/
def getColumnLabel (i : Nat) : String :=
  if 26 ≤ i then getColumnLabel (i / 26 - 1) ++ (alphaChar (i % 26)).toString
  else (alphaChar (i % 26)).toString
termination_by i
decreasing_by
  have h26 : i / 26 < i := Nat.div_lt_self (by omega) (by omega)
  omega

/-- Numeric value of a label character: position of `c` counted from `A`. -/
def charVal (c : Char) : Nat := c.toNat - 65

/-- Fold of the bijective base-26 digit values of a label, offset by one:
digit `c` contributes `charVal c + 1`. -/
def decodeAux (l : List Char) : Nat :=
  l.foldl (fun a c => a * 26 + (charVal c + 1)) 0

/-- Decoder for column labels, derived as the spec requires: the inverse of
`getColumnLabel` on its range. -/
def decodeLabel (s : String) : Nat := decodeAux s.data - 1

/-- JavaScript `String(value)` for the cell value variants. -/
def jsToString : CellValue → String
  | .str s => s
  | .num n => toString n
  | .bool b => if b then "true" else "false"
  | .null => "null"

/-- Text shown by the template literal interpolation of `cellValue` in the
error messages (renders the absent value as `undefined`). -/
def jsDisplay : Option CellValue → String
  | none => "undefined"
  | some v => jsToString v

/-- Whitespace removed by JavaScript `String.prototype.trim` (tab, line
feed, vertical tab, form feed, carriage return, space, no-break space,
line and paragraph separators, byte order mark). -/
def isJsWhitespace (c : Char) : Bool :=
  c.toNat ∈ [9, 10, 11, 12, 13, 32, 160, 8232, 8233, 65279]

/-- JavaScript `String.prototype.trim`. -/
def jsTrim (s : String) : String :=
  String.mk (((s.data.dropWhile isJsWhitespace).reverse.dropWhile isJsWhitespace).reverse)

/-- Hexadecimal digit as accepted after `0x` in a JS numeric string. -/
def isHexDigitJs (c : Char) : Bool :=
  c.isDigit || (97 ≤ c.toNat && c.toNat ≤ 102) || (65 ≤ c.toNat && c.toNat ≤ 70)

/-- Octal digit as accepted after `0o`. -/
def isOctDigitJs (c : Char) : Bool := 48 ≤ c.toNat && c.toNat ≤ 55

/-- Binary digit as accepted after `0b`. -/
def isBinDigitJs (c : Char) : Bool := c == '0' || c == '1'

/-- Non-empty run of decimal digits. -/
def digits1 (l : List Char) : Bool := !l.isEmpty && l.all (fun c => c.isDigit)

/-- Optional exponent part of a decimal literal: empty, or `e`/`E`
followed by an optionally signed non-empty digit run. -/
def expPartOk : List Char → Bool
  | [] => true
  | c :: rest =>
      (c == 'e' || c == 'E') &&
      (match rest with
       | c2 :: r2 => if c2 == '+' || c2 == '-' then digits1 r2 else digits1 rest
       | [] => false)

/-- ECMAScript `StrUnsignedDecimalLiteral`: `Infinity`, or decimal digits
with an optional fraction and exponent, or a bare fraction. -/
def unsignedDecLit (l : List Char) : Bool :=
  if l = ['I', 'n', 'f', 'i', 'n', 'i', 't', 'y'] then true
  else
    let intPart := l.takeWhile (fun c => c.isDigit)
    let rest := l.drop intPart.length
    match rest with
    | [] => !intPart.isEmpty
    | c :: r2 =>
      if c == '.' then
        let frac := r2.takeWhile (fun ch => ch.isDigit)
        let r3 := r2.drop frac.length
        (!intPart.isEmpty || !frac.isEmpty) && expPartOk r3
      else !intPart.isEmpty && expPartOk rest

/-- ECMAScript `StrDecimalLiteral`: optional sign then an unsigned
decimal literal. -/
def strDecimalLit : List Char → Bool
  | c :: r => if c == '+' || c == '-' then unsignedDecLit r else unsignedDecLit (c :: r)
  | [] => unsignedDecLit []

/-- ECMAScript `NonDecimalIntegerLiteral`: `0x`, `0o` or `0b` (either
case) followed by a non-empty run of matching digits; no sign allowed. -/
def nonDecimalIntLit : List Char → Bool
  | z :: x :: r =>
      z == '0' &&
      (((x == 'x' || x == 'X') && !r.isEmpty && r.all isHexDigitJs) ||
       ((x == 'o' || x == 'O') && !r.isEmpty && r.all isOctDigitJs) ||
       ((x == 'b' || x == 'B') && !r.isEmpty && r.all isBinDigitJs))
  | _ => false

/-- ECMAScript `StrNumericLiteral`. -/
def strNumericLiteralOk (l : List Char) : Bool :=
  strDecimalLit l || nonDecimalIntLit l

/-- Computes `isNaN(Number(s))` for a string: ECMAScript string-to-number yields
NaN exactly when the trimmed text is non-empty and not a numeric
literal (the empty trimmed string converts to 0). -/
def jsStringToNumberIsNaN (s : String) : Bool :=
  let t := jsTrim s
  if t.data.isEmpty then false else !(strNumericLiteralOk t.data)

/-- Computes `isNaN(Number(cellValue))` as evaluated by the validator: booleans
convert to 0 or 1, `null` to 0, numbers are themselves (cell numbers are
finite), the absent value converts to NaN, strings via the string
numeric-literal grammar. -/
def jsToNumberIsNaN : Option CellValue → Bool
  | none => true
  | some .null => false
  | some (.bool _) => false
  | some (.num _) => false
  | some (.str s) => jsStringToNumberIsNaN s

/-- Modelled from the spec: `Date.parse` is a host builtin absent from the
repository sources; the spec requires only a permissive grammar that
"must accept ISO-8601 date strings at minimum".  Modelled as a
recogniser of ISO 8601 `YYYY-MM-DD` calendar dates.  No verified claim
depends on which particular strings are accepted here. -/
def jsDateParseOk (s : String) : Bool :=
  match s.data with
  | [y1, y2, y3, y4, h1, m1, m2, h2, d1, d2] =>
      y1.isDigit && y2.isDigit && y3.isDigit && y4.isDigit &&
      h1 == '-' && h2 == '-' &&
      m1.isDigit && m2.isDigit && d1.isDigit && d2.isDigit &&
      (let m := (m1.toNat - 48) * 10 + (m2.toNat - 48)
       let d := (d1.toNat - 48) * 10 + (d2.toNat - 48)
       decide (1 ≤ m) && decide (m ≤ 12) && decide (1 ≤ d) && decide (d ≤ 31))
  | _ => false

/-- Cell text of `validateData`: `cellValue === undefined || cellValue === null
? '' : String(cellValue).trim()`. -/
def cellTextOf (cellValue : Option CellValue) : String :=
  match cellValue with
  | none => ""
  | some .null => ""
  | some v => jsTrim (jsToString v)

/-- The required-check error pushed by `validateData`. -/
def requiredError (rowIndex : Nat) (rule : ColumnSchema) : ValidationError :=
  ⟨rowIndex, rule.index,
   "Column " ++ quoteStr ++ rule.name ++ quoteStr ++ " is required but was empty."⟩

/-- The Number type-check error pushed by `validateData`. -/
def numberError (rowIndex : Nat) (rule : ColumnSchema) (cellValue : Option CellValue) :
    ValidationError :=
  ⟨rowIndex, rule.index,
   "Expected a Number, got " ++ quoteStr ++ jsDisplay cellValue ++ quoteStr ++ "."⟩

/-- The Boolean type-check error pushed by `validateData`. -/
def booleanError (rowIndex : Nat) (rule : ColumnSchema) (cellValue : Option CellValue) :
    ValidationError :=
  ⟨rowIndex, rule.index,
   "Expected Boolean (true/false), got " ++ quoteStr ++ jsDisplay cellValue ++ quoteStr ++ "."⟩

/-- The Date type-check error pushed by `validateData`. -/
def dateError (rowIndex : Nat) (rule : ColumnSchema) (cellValue : Option CellValue) :
    ValidationError :=
  ⟨rowIndex, rule.index,
   "Expected a valid Date, got " ++ quoteStr ++ jsDisplay cellValue ++ quoteStr ++ "."⟩

/-- The accepted lower-cased boolean texts of the Boolean type check. -/
def boolTexts : List String := ["true", "false", "1", "0", "yes", "no"]

/-- Body of the inner `schema.forEach` of `validateData` (part_001): the
errors one schema rule pushes for one row.  `row.get? rule.index` is the
JavaScript read `row[rule.index]`, `none` standing for `undefined`. -/
def rowRuleErrors (rowIndex : Nat) (row : RowData) (rule : ColumnSchema) :
    List ValidationError :=
  let cellValue := row[rule.index]?
  let cellStr := cellTextOf cellValue
  if rule.required ∧ cellStr = "" then [requiredError rowIndex rule]
  else if cellStr = "" then []
  else
    match rule.type with
    | .NUMBER =>
        if jsToNumberIsNaN cellValue then [numberError rowIndex rule cellValue] else []
    | .BOOLEAN =>
        if !(boolTexts.contains cellStr.toLower) then [booleanError rowIndex rule cellValue]
        else []
    | .DATE =>
        if !(jsDateParseOk cellStr) then [dateError rowIndex rule cellValue] else []
    | .STRING => []

/-- Body of the outer `rows.forEach` of `validateData`: a row with zero
cells is skipped when the schema is non-empty, otherwise each schema rule
is applied in order. -/
def rowErrors (schema : List ColumnSchema) (rowIndex : Nat) (row : RowData) :
    List ValidationError :=
  if row.length = 0 ∧ 0 < schema.length then []
  else (schema.map (rowRuleErrors rowIndex row)).flatten

/-- Source `validateData` (part_001): rows are processed in order with their
indices and every pushed error is accumulated in discovery order. -/
def validateData (rows : List RowData) (schema : List ColumnSchema) :
    List ValidationError :=
  (rows.enum.map (fun p => rowErrors schema p.1 p.2)).flatten

/-- Source `src/components/Grid.tsx`: `getError = (r, c) =>
errors.find((e) => e.rowIndex === r && e.colIndex === c)`.  This is the
per-cell error lookup; presence (`hasErrorAt`) is `(getError r c).isSome`
(the `!!error` test of the source). -/
def getError (errors : List ValidationError) (r c : Nat) : Option ValidationError :=
  errors.find? (fun e => e.rowIndex == r && e.colIndex == c)

/-- Source `src/components/TearEffect.tsx`: `pointsCount = 80`. -/
def pointsCount : Nat := 80

/-- Source `src/components/TearEffect.tsx`, `tearPoints`: one sampled offset.
The host values `Math.sin(x*PI*4)`, `Math.cos(x*PI*12)` and
`Math.random()` at sample `i` are the abstract rational inputs `s i`,
`c i` and `r i`; the verified properties hold for all of their values.
The pushed offset is `Math.max(2, Math.min(25, 12 + noise))` with
`noise = sin*8 + cos*4 + random*6`. -/
def tearOffset (s c r : Nat → ℚ) (i : Nat) : ℚ :=
  max 2 (min 25 (12 + (s i * 8 + c i * 4 + r i * 6)))

/-- The full sampled profile: the loop `for (i = 0; i <= pointsCount; i++)`
pushing one clamped offset per sample. -/
def tearPoints (s c r : Nat → ℚ) : List ℚ :=
  (List.range (pointsCount + 1)).map (tearOffset s c r)

/-- The x-percentage of sample `i` among `n` samples:
`(i / (tearPoints.length - 1)) * 100`. -/
def xCoord (n i : Nat) : ℚ := ((i : ℚ) / ((n : ℚ) - 1)) * 100

/-- Vertex list of `topClipPath` of `TearEffect.tsx`: top-left,
top-right, then every sample at `y = 100 - offset`, then bottom-left.
The CSS `polygon(...)` string and its `toFixed(2)` decimal formatting are
presentation of these vertices and are outside the model. -/
def topClipPath (pts : List ℚ) : List (ℚ × ℚ) :=
  [(0, 0), (100, 0)] ++ pts.enum.map (fun p => (xCoord pts.length p.1, 100 - p.2)) ++ [(0, 100)]

/-- Vertex list of `bottomClipPath` of `TearEffect.tsx`: every sample
at `y = offset`, then bottom-right, bottom-left. -/
def bottomClipPath (pts : List ℚ) : List (ℚ × ℚ) :=
  pts.enum.map (fun p => (xCoord pts.length p.1, p.2)) ++ [(100, 100), (0, 100)]


/-- Contribution of schema rule `j` to row `r` inside `validateData`:
empty when the row or rule index is out of range or the row is skipped,
otherwise the errors the rule pushes for that row. -/
def cellCheck (rows : List RowData) (schema : List ColumnSchema) (r j : Nat) :
    List ValidationError :=
  match rows[r]? with
  | none => []
  | some row =>
      if row.length = 0 ∧ 0 < schema.length then []
      else
        match schema[j]? with
        | none => []
        | some rule => rowRuleErrors r row rule

/-- Follows the words of the spec, for comparison with the code (claim
C3): the unsigned part of "a numeric literal (standard decimal/integer/
scientific forms)" — decimal digits with an optional fraction, or a bare
fraction, with an optional exponent part. -/
def specUnsignedNumeric (l : List Char) : Bool :=
  let intPart := l.takeWhile (fun ch => ch.isDigit)
  let rest := l.drop intPart.length
  match rest with
  | [] => !intPart.isEmpty
  | ch :: r2 =>
    if ch == '.' then
      let frac := r2.takeWhile (fun c2 => c2.isDigit)
      let r3 := r2.drop frac.length
      (!intPart.isEmpty || !frac.isEmpty) && expPartOk r3
    else !intPart.isEmpty && expPartOk rest

/-- Follows the words of the spec, for comparison with the code (claim
C3): a numeric literal in standard decimal, integer or scientific form, with
an optional leading sign. -/
def specNumericLiteral (s : String) : Bool :=
  match s.data with
  | [] => false
  | c :: r =>
      if c == '+' || c == '-' then specUnsignedNumeric r
      else specUnsignedNumeric (c :: r)

/-- The type-check failure condition of `validateData`, by column type,
for the cell value read from the row. -/
def typeCheckFails (t : ColumnType) (v : Option CellValue) : Bool :=
  match t with
  | .NUMBER => jsToNumberIsNaN v
  | .BOOLEAN => !(boolTexts.contains (cellTextOf v).toLower)
  | .DATE => !(jsDateParseOk (cellTextOf v))
  | .STRING => false

theorem charVal_alphaChar (k : Nat) (h : k < 26) : charVal (alphaChar k) = k := by
  interval_cases k <;> rfl

theorem decodeAux_getColumnLabel (i : Nat) :
    decodeAux (getColumnLabel i).data = i + 1 := by
  induction i using Nat.strong_induction_on with
  | _ i ih =>
    rw [getColumnLabel]
    by_cases h : 26 ≤ i
    · have hlt : i / 26 - 1 < i := by
        have h26 : i / 26 < i := Nat.div_lt_self (by omega) (by omega)
        omega
      rw [if_pos h]
      have hdata : (getColumnLabel (i / 26 - 1) ++ (alphaChar (i % 26)).toString).data
          = (getColumnLabel (i / 26 - 1)).data ++ [alphaChar (i % 26)] := rfl
      rw [hdata]
      unfold decodeAux
      rw [List.foldl_append]
      have hrec := ih (i / 26 - 1) hlt
      unfold decodeAux at hrec
      rw [hrec]
      simp only [List.foldl_cons, List.foldl_nil]
      rw [charVal_alphaChar (i % 26) (Nat.mod_lt i (by omega))]
      have hdiv : (i / 26 - 1 + 1) = i / 26 := by omega
      rw [hdiv]
      omega
    · rw [if_neg h]
      have hmod : i % 26 = i := Nat.mod_eq_of_lt (by omega)
      have hdata : ((alphaChar (i % 26)).toString).data = [alphaChar (i % 26)] := rfl
      unfold decodeAux
      rw [hdata]
      simp only [List.foldl_cons, List.foldl_nil]
      rw [hmod, charVal_alphaChar i (by omega)]
      omega

theorem decodeLabel_getColumnLabel (i : Nat) :
    decodeLabel (getColumnLabel i) = i := by
  unfold decodeLabel
  rw [decodeAux_getColumnLabel]
  omega

theorem getColumnLabel_0 : getColumnLabel 0 = "A" := by
  simp [getColumnLabel, alphaChar, ALPHABET]; rfl

theorem getColumnLabel_25 : getColumnLabel 25 = "Z" := by
  simp [getColumnLabel, alphaChar, ALPHABET]; rfl

theorem getColumnLabel_26 : getColumnLabel 26 = "AA" := by
  simp [getColumnLabel, alphaChar, ALPHABET]; rfl

theorem getColumnLabel_701 : getColumnLabel 701 = "ZZ" := by
  simp [getColumnLabel, alphaChar, ALPHABET]; rfl

theorem getColumnLabel_702 : getColumnLabel 702 = "AAA" := by
  simp [getColumnLabel, alphaChar, ALPHABET]; rfl

theorem cellCheck_of_some (rows : List RowData) (schema : List ColumnSchema)
    (r j : Nat) (row : RowData) (h : rows[r]? = some row) :
    cellCheck rows schema r j
      = if row.length = 0 ∧ 0 < schema.length then []
        else (schema[j]?).elim [] (rowRuleErrors r row) := by
  unfold cellCheck
  rw [h]
  cases schema[j]? <;> rfl

theorem cellCheck_of_none (rows : List RowData) (schema : List ColumnSchema)
    (r j : Nat) (h : rows[r]? = none) :
    cellCheck rows schema r j = [] := by
  unfold cellCheck
  rw [h]

theorem map_eq_range_map {α β : Type} (l : List α) (g : α → List β) :
    l.map g = (List.range l.length).map (fun j => (l[j]?).elim [] g) := by
  induction l with
  | nil => rfl
  | cons a t ih =>
    simp only [List.map_cons, List.length_cons, List.range_succ_eq_map,
      List.map_map]
    congr 1
    · simp
    · rw [ih]
      apply List.map_congr_left
      intro j _
      simp

theorem enumFrom_getElem? {α : Type} (l : List α) (s i : Nat) :
    (List.enumFrom s l)[i]? = (l[i]?).map (fun a => (s + i, a)) := by
  induction l generalizing s i with
  | nil => simp
  | cons a t ih =>
    cases i with
    | zero => simp
    | succ i =>
      simp only [List.enumFrom_cons, List.getElem?_cons_succ]
      rw [ih (s + 1) i]
      have h : s + 1 + i = s + (i + 1) := by omega
      simp [h]

theorem enum_map_eq_range_map {α β : Type} (l : List α) (g : Nat → α → List β) :
    l.enum.map (fun p => g p.1 p.2)
      = (List.range l.length).map (fun r => (l[r]?).elim [] (g r)) := by
  apply List.ext_getElem?
  intro n
  rw [List.getElem?_map, List.getElem?_map]
  have henum : l.enum[n]? = (l[n]?).map (fun a => (n, a)) := by
    have h0 := enumFrom_getElem? l 0 n
    simp only [Nat.zero_add] at h0
    exact h0
  rw [henum]
  by_cases hn : n < l.length
  · rw [List.getElem?_range hn]
    cases hg : l[n]? with
    | none =>
      exact absurd (List.getElem?_eq_none_iff.mp hg) (by omega)
    | some a => simp [hg]
  · have h1 : l[n]? = none := List.getElem?_eq_none_iff.mpr (by omega)
    have h2 : (List.range l.length)[n]? = none :=
      List.getElem?_eq_none_iff.mpr (by simp only [List.length_range]; omega)
    rw [h1, h2]
    rfl

theorem flatten_map_nil {α β : Type} (l : List α) :
    (l.map (fun _ => ([] : List β))).flatten = [] := by
  induction l with
  | nil => rfl
  | cons a t ih =>
    rw [List.map_cons, List.flatten_cons, ih]
    rfl

/-- Decomposition of `validateData` into per-(row, rule) contributions,
rows in input order and rules in schema order. -/
theorem validateData_eq_cells (rows : List RowData) (schema : List ColumnSchema) :
    validateData rows schema
      = ((List.range rows.length).map
          (fun r => ((List.range schema.length).map (cellCheck rows schema r)).flatten)).flatten := by
  unfold validateData
  rw [enum_map_eq_range_map rows (fun r row => rowErrors schema r row)]
  congr 1
  apply List.map_congr_left
  intro r hr
  cases hget : rows[r]? with
  | none =>
    have hcc : ∀ j ∈ List.range schema.length, cellCheck rows schema r j = [] :=
      fun j _ => cellCheck_of_none rows schema r j hget
    rw [List.map_congr_left hcc, flatten_map_nil]
    rfl
  | some row =>
    simp only [Option.elim]
    unfold rowErrors
    by_cases hskip : row.length = 0 ∧ 0 < schema.length
    · rw [if_pos hskip]
      have hcc : ∀ j ∈ List.range schema.length, cellCheck rows schema r j = [] := by
        intro j _
        rw [cellCheck_of_some rows schema r j row hget, if_pos hskip]
      rw [List.map_congr_left hcc, flatten_map_nil]
    · rw [if_neg hskip]
      rw [map_eq_range_map schema (rowRuleErrors r row)]
      congr 1
      apply List.map_congr_left
      intro j _
      rw [cellCheck_of_some rows schema r j row hget, if_neg hskip]

theorem mem_validateData_of_mem_cellCheck (rows : List RowData)
    (schema : List ColumnSchema) (r j : Nat) (e : ValidationError)
    (hr : r < rows.length) (hj : j < schema.length)
    (he : e ∈ cellCheck rows schema r j) : e ∈ validateData rows schema := by
  rw [validateData_eq_cells]
  refine List.mem_flatten.mpr
    ⟨((List.range schema.length).map (cellCheck rows schema r)).flatten, ?_, ?_⟩
  · exact List.mem_map.mpr ⟨r, List.mem_range.mpr hr, rfl⟩
  · exact List.mem_flatten.mpr
      ⟨cellCheck rows schema r j, List.mem_map.mpr ⟨j, List.mem_range.mpr hj, rfl⟩, he⟩

theorem mem_ite_cases {α : Type} {p : Prop} [Decidable p] {l1 l2 : List α}
    {a : α} (h : a ∈ if p then l1 else l2) : a ∈ l1 ∨ a ∈ l2 := by
  by_cases hp : p
  · rw [if_pos hp] at h
    exact Or.inl h
  · rw [if_neg hp] at h
    exact Or.inr h

theorem rowIndex_of_mem_rowRuleErrors (ri : Nat) (row : RowData)
    (rule : ColumnSchema) (e : ValidationError)
    (he : e ∈ rowRuleErrors ri row rule) : e.rowIndex = ri := by
  unfold rowRuleErrors at he
  split at he
  all_goals
    rcases mem_ite_cases he with h | h
  all_goals
    try rcases mem_ite_cases h with h | h
  all_goals
    try rcases mem_ite_cases h with h | h
  all_goals
    first
    | (rw [List.mem_singleton] at h; subst h; rfl)
    | simp at h

theorem rowIndex_of_mem_cellCheck (rows : List RowData)
    (schema : List ColumnSchema) (r j : Nat) (e : ValidationError)
    (he : e ∈ cellCheck rows schema r j) : e.rowIndex = r := by
  unfold cellCheck at he
  repeat' split at he
  all_goals
    first
    | exact rowIndex_of_mem_rowRuleErrors _ _ _ _ he
    | simp at he

/-- C6: `validateData` returns errors in discovery order — it equals the
concatenation, over row indices in input order and, within a row, over
schema-rule indices in schema order, of each (row, rule) contribution
`cellCheck`.  Nothing is deduplicated or merged: every contribution
appears verbatim, so duplicate rule indices contribute all their
respective errors. -/
theorem validateData_discovery_order (rows : List RowData)
    (schema : List ColumnSchema) :
    validateData rows schema
      = ((List.range rows.length).map
          (fun r => ((List.range schema.length).map (cellCheck rows schema r)).flatten)).flatten :=
  validateData_eq_cells rows schema

/-- C7: the per-cell lookup of the Grid is consistent with the error
list: for every error in the list the lookup at its coordinates reports
presence; whatever the lookup returns is an element of the list located
at the queried coordinates (so its message is the message of an error at
that cell); and at coordinates no error mentions the lookup reports
absence. -/
theorem getError_consistent (errors : List ValidationError) :
    (∀ e ∈ errors, (getError errors e.rowIndex e.colIndex).isSome = true) ∧
    (∀ (r c : Nat) (e2 : ValidationError), getError errors r c = some e2 →
        e2 ∈ errors ∧ e2.rowIndex = r ∧ e2.colIndex = c) ∧
    (∀ r c : Nat, (∀ e ∈ errors, ¬(e.rowIndex = r ∧ e.colIndex = c)) →
        getError errors r c = none) := by
  refine ⟨?_, ?_, ?_⟩
  · intro e he
    apply List.find?_isSome.mpr
    exact ⟨e, he, by simp⟩
  · intro r c e2 hfind
    have hmem := List.mem_of_find?_eq_some hfind
    have hp := List.find?_some hfind
    simp only [Bool.and_eq_true, beq_iff_eq] at hp
    exact ⟨hmem, hp.1, hp.2⟩
  · intro r c hnone
    apply List.find?_eq_none.mpr
    intro e he
    have := hnone e he
    simp only [Bool.and_eq_true, beq_iff_eq]
    tauto

/-- Witness for C7 on a concrete error list. -/
theorem getError_consistent_witness :
    (getError [⟨1, 2, "m"⟩] (1 : Nat) (2 : Nat)).isSome = true ∧
    getError [⟨1, 2, "m"⟩] (0 : Nat) (0 : Nat) = none := by
  constructor
  · exact (getError_consistent [⟨1, 2, "m"⟩]).1 ⟨1, 2, "m"⟩ (by simp)
  · exact (getError_consistent [⟨1, 2, "m"⟩]).2.2 0 0 (by simp)

/-- C8: a row that is an empty sequence contributes zero errors when the
schema is non-empty: no error of the output carries that row index. -/
theorem empty_row_contributes_no_errors (rows : List RowData)
    (schema : List ColumnSchema) (r : Nat) (hs : schema ≠ [])
    (hr : rows[r]? = some ([] : RowData)) :
    ∀ e ∈ validateData rows schema, e.rowIndex ≠ r := by
  intro e he
  rw [validateData_eq_cells] at he
  obtain ⟨inner, hinner, hein⟩ := List.mem_flatten.mp he
  obtain ⟨r2, hr2, hmap⟩ := List.mem_map.mp hinner
  subst hmap
  obtain ⟨cell, hcell, hecell⟩ := List.mem_flatten.mp hein
  obtain ⟨j, hj, hmap2⟩ := List.mem_map.mp hcell
  subst hmap2
  have hrow := rowIndex_of_mem_cellCheck rows schema r2 j e hecell
  intro hcontra
  have hr2r : r2 = r := by omega
  subst hr2r
  rw [cellCheck_of_some rows schema r2 j [] hr] at hecell
  rw [if_pos ⟨rfl, List.length_pos.mpr hs⟩] at hecell
  simp at hecell

theorem getElem?_cons_cons_add_two {α : Type} (a b : α) (l : List α) (i : Nat) :
    (a :: b :: l)[2 + i]? = l[i]? := by
  rw [show 2 + i = i + 1 + 1 from by omega]
  rw [List.getElem?_cons_succ, List.getElem?_cons_succ]

theorem getElem?_append_left {α : Type} (l1 l2 : List α) (i : Nat)
    (h : i < l1.length) : (l1 ++ l2)[i]? = l1[i]? := by
  rw [List.getElem?_append, if_pos h]

theorem tearPoints_length (s c r : Nat → ℚ) : (tearPoints s c r).length = 81 := by
  simp [tearPoints, pointsCount]

theorem tearPoints_getElem? (s c r : Nat → ℚ) (i : Nat) (h : i < 81) :
    (tearPoints s c r)[i]? = some (tearOffset s c r i) := by
  unfold tearPoints
  rw [List.getElem?_map]
  rw [List.getElem?_range (by simpa [pointsCount] using h)]
  rfl

/-- C1: the two clip paths of one reveal instance interlock.  Both are
derived from the one shared `tearPoints` profile: for every sample index
`i`, the top flap polygon carries the vertex `(x i, 100 - offset i)` (at
position `i` after its two corner vertices) and the bottom flap polygon
carries the vertex `(x i, offset i)` at position `i`, with the same
x-coordinate, and the two y-values sum to exactly 100.  (The CSS string
rendering of these rational vertices is presentation only.) -/
theorem tear_edges_interlock (s c r : Nat → ℚ) (i : Nat) (h : i ≤ pointsCount) :
    (topClipPath (tearPoints s c r))[2 + i]?
        = some (xCoord 81 i, 100 - tearOffset s c r i) ∧
    (bottomClipPath (tearPoints s c r))[i]?
        = some (xCoord 81 i, tearOffset s c r i) ∧
    (100 - tearOffset s c r i) + tearOffset s c r i = 100 := by
  have hi81 : i < 81 := by
    simp only [pointsCount] at h
    omega
  have hlen : (tearPoints s c r).length = 81 := tearPoints_length s c r
  have hpts : (tearPoints s c r)[i]? = some (tearOffset s c r i) :=
    tearPoints_getElem? s c r i hi81
  have henum : (tearPoints s c r).enum[i]? = some (i, tearOffset s c r i) := by
    have h0 : (tearPoints s c r).enum = List.enumFrom 0 (tearPoints s c r) := rfl
    rw [h0, enumFrom_getElem?, hpts]
    simp
  have henumlen : (tearPoints s c r).enum.length = 81 := by
    simp [hlen]
  have hmaplen : ∀ g : Nat × ℚ → ℚ × ℚ, i < ((tearPoints s c r).enum.map g).length := by
    intro g
    simpa [henumlen] using hi81
  refine ⟨?_, ?_, by ring⟩
  · unfold topClipPath
    simp only [List.cons_append, List.nil_append]
    rw [getElem?_cons_cons_add_two]
    rw [getElem?_append_left _ _ _ (hmaplen _)]
    rw [List.getElem?_map, henum]
    simp [hlen]
  · unfold bottomClipPath
    rw [getElem?_append_left _ _ _ (hmaplen _)]
    rw [List.getElem?_map, henum]
    simp [hlen]

/-- Witness for C1 at sample 0 of the all-zero noise instance. -/
theorem tear_edges_interlock_witness :
    (topClipPath (tearPoints (fun _ => 0) (fun _ => 0) (fun _ => 0)))[2 + 0]?
        = some (xCoord 81 0, 100 - tearOffset (fun _ => 0) (fun _ => 0) (fun _ => 0) 0) ∧
    (bottomClipPath (tearPoints (fun _ => 0) (fun _ => 0) (fun _ => 0)))[0]?
        = some (xCoord 81 0, tearOffset (fun _ => 0) (fun _ => 0) (fun _ => 0) 0) ∧
    (100 - tearOffset (fun _ => 0) (fun _ => 0) (fun _ => 0) 0)
        + tearOffset (fun _ => 0) (fun _ => 0) (fun _ => 0) 0 = 100 :=
  tear_edges_interlock (fun _ => 0) (fun _ => 0) (fun _ => 0) 0 (by norm_num [pointsCount])

/-- C5: every offset of a generated tear profile lies within the clamp
bounds, at least 2 and at most 25, for every sample index and every value
of the sine, cosine and random-jitter inputs. -/
theorem tearPoints_within_clamp (s c r : Nat → ℚ) :
    ∀ p ∈ tearPoints s c r, 2 ≤ p ∧ p ≤ 25 := by
  intro p hp
  unfold tearPoints at hp
  obtain ⟨i, _, hoff⟩ := List.mem_map.mp hp
  subst hoff
  unfold tearOffset
  exact ⟨le_max_left _ _, max_le (by norm_num) (min_le_left _ _)⟩

/-- Witness for C5: the offset of sample 0 of the all-zero noise instance
is 12, within the clamp bounds. -/
theorem tearPoints_within_clamp_witness : 2 ≤ (12 : ℚ) ∧ (12 : ℚ) ≤ 25 :=
  tearPoints_within_clamp (fun _ => 0) (fun _ => 0) (fun _ => 0) 12
    (by
      unfold tearPoints
      refine List.mem_map.mpr ⟨0, List.mem_range.mpr (by norm_num [pointsCount]), ?_⟩
      norm_num [tearOffset])

/-- C2: the column-label codec matches conventional spreadsheet naming at
the anchor points, round-trips through the derived decoder on all of
[0, 10000), and is injective there. -/
theorem getColumnLabel_codec :
    getColumnLabel 0 = "A" ∧ getColumnLabel 25 = "Z" ∧ getColumnLabel 26 = "AA" ∧
    getColumnLabel 701 = "ZZ" ∧ getColumnLabel 702 = "AAA" ∧
    (∀ i : Nat, i < 10000 → decodeLabel (getColumnLabel i) = i) ∧
    (∀ i j : Nat, i < 10000 → j < 10000 → getColumnLabel i = getColumnLabel j → i = j) := by
  refine ⟨getColumnLabel_0, getColumnLabel_25, getColumnLabel_26, getColumnLabel_701,
    getColumnLabel_702, fun i _ => decodeLabel_getColumnLabel i, fun i j _ _ hlab => ?_⟩
  have hi := decodeLabel_getColumnLabel i
  have hj := decodeLabel_getColumnLabel j
  rw [hlab] at hi
  omega

/-- Witness for C2: the round trip at 9999 and injectivity at 702. -/
theorem getColumnLabel_codec_witness :
    decodeLabel (getColumnLabel 9999) = 9999 ∧ (702 : Nat) = 702 :=
  ⟨getColumnLabel_codec.2.2.2.2.2.1 9999 (by omega),
   getColumnLabel_codec.2.2.2.2.2.2 702 702 (by omega) (by omega) rfl⟩

theorem alphaChar_bounds (k : Nat) (h : k < 26) :
    'A' ≤ alphaChar k ∧ alphaChar k ≤ 'Z' := by
  interval_cases k <;> exact ⟨by decide, by decide⟩

theorem getColumnLabel_data_spec (i : Nat) :
    (getColumnLabel i).data ≠ [] ∧
    ∀ ch ∈ (getColumnLabel i).data, 'A' ≤ ch ∧ ch ≤ 'Z' := by
  induction i using Nat.strong_induction_on with
  | _ i ih =>
    rw [getColumnLabel]
    by_cases h : 26 ≤ i
    · rw [if_pos h]
      have hlt : i / 26 - 1 < i := by
        have h26 : i / 26 < i := Nat.div_lt_self (by omega) (by omega)
        omega
      have hd : (getColumnLabel (i / 26 - 1) ++ (alphaChar (i % 26)).toString).data
          = (getColumnLabel (i / 26 - 1)).data ++ [alphaChar (i % 26)] := rfl
      rw [hd]
      obtain ⟨h1, h2⟩ := ih _ hlt
      refine ⟨by simp, ?_⟩
      intro ch hch
      rcases List.mem_append.mp hch with hch | hch
      · exact h2 ch hch
      · rw [List.mem_singleton] at hch
        subst hch
        exact alphaChar_bounds _ (Nat.mod_lt i (by omega))
    · rw [if_neg h]
      have hd : ((alphaChar (i % 26)).toString).data = [alphaChar (i % 26)] := rfl
      rw [hd]
      refine ⟨by simp, ?_⟩
      intro ch hch
      rw [List.mem_singleton] at hch
      subst hch
      exact alphaChar_bounds _ (Nat.mod_lt i (by omega))

/-- C10: `getColumnLabel` is total — its recursion measure `i` strictly
decreases under the loop step `i ↦ i / 26 - 1` (which drops below the
loop guard after finitely many steps, as the termination proof of the
definition establishes) — and it returns a non-empty string drawn from the
characters A through Z. -/
theorem getColumnLabel_total (i : Nat) :
    getColumnLabel i ≠ "" ∧
    (∀ ch ∈ (getColumnLabel i).data, 'A' ≤ ch ∧ ch ≤ 'Z') ∧
    (26 ≤ i → i / 26 - 1 < i) := by
  obtain ⟨h1, h2⟩ := getColumnLabel_data_spec i
  refine ⟨fun heq => h1 (by rw [heq]), h2, fun h => ?_⟩
  have h26 : i / 26 < i := Nat.div_lt_self (by omega) (by omega)
  omega

/-- Witness for C10 at index 702, with the character bound instantiated
at the letter of label "A". -/
theorem getColumnLabel_total_witness :
    getColumnLabel 702 ≠ "" ∧ ('A' ≤ 'A' ∧ 'A' ≤ 'Z') ∧ 702 / 26 - 1 < 702 := by
  refine ⟨(getColumnLabel_total 702).1, ?_, (getColumnLabel_total 702).2.2 (by omega)⟩
  apply (getColumnLabel_total 0).2.1 'A'
  rw [getColumnLabel_0]
  decide

theorem lt_of_getElem?_some {α : Type} {l : List α} {n : Nat} {a : α}
    (h : l[n]? = some a) : n < l.length := by
  by_contra hn
  rw [List.getElem?_eq_none_iff.mpr (by omega)] at h
  exact absurd h (by simp)

theorem cellCheck_eq_rowRuleErrors (rows : List RowData)
    (schema : List ColumnSchema) (ri j : Nat) (row : RowData)
    (rule : ColumnSchema) (hrow : rows[ri]? = some row)
    (hrule : schema[j]? = some rule)
    (hskip : ¬(row.length = 0 ∧ 0 < schema.length)) :
    cellCheck rows schema ri j = rowRuleErrors ri row rule := by
  rw [cellCheck_of_some rows schema ri j row hrow, if_neg hskip, hrule]
  rfl

theorem mem_validateData_of_mem_rowRuleErrors (rows : List RowData)
    (schema : List ColumnSchema) (ri j : Nat) (row : RowData)
    (rule : ColumnSchema) (e : ValidationError)
    (hrow : rows[ri]? = some row) (hrule : schema[j]? = some rule)
    (hskip : ¬(row.length = 0 ∧ 0 < schema.length))
    (he : e ∈ rowRuleErrors ri row rule) : e ∈ validateData rows schema :=
  mem_validateData_of_mem_cellCheck rows schema ri j e
    (lt_of_getElem?_some hrow) (lt_of_getElem?_some hrule)
    (by rw [cellCheck_eq_rowRuleErrors rows schema ri j row rule hrow hrule hskip]; exact he)

/-- Counterexample to C3 as stated: a Boolean cell value in a
Number-typed column has non-empty trimmed text "true", which is not a
numeric literal in standard decimal/integer/scientific form, yet
`validateData` emits no error, because the code evaluates
`isNaN(Number(cellValue))` on the original value and `Number(true)` is 1. -/
theorem number_check_counterexample :
    ([CellValue.bool true] : RowData)[(0 : Nat)]? = some (CellValue.bool true) ∧
    cellTextOf (some (CellValue.bool true)) = "true" ∧
    specNumericLiteral "true" = false ∧
    validateData [[CellValue.bool true]] [⟨0, "Age", ColumnType.NUMBER, false⟩] = [] := by
  refine ⟨rfl, rfl, rfl, rfl⟩

/-- C3 (amended): for a Number-typed rule over a cell with non-empty
trimmed text, the rule contributes exactly one Number error when
JavaScript `Number()` conversion of the original cell value is NaN and
no error otherwise; and `validateData` on a single row and single rule
is exactly that contribution. -/
theorem number_check_isNaN (ri : Nat) (row : RowData) (rule : ColumnSchema)
    (ht : rule.type = ColumnType.NUMBER)
    (hs : cellTextOf row[rule.index]? ≠ "") :
    rowRuleErrors ri row rule
      = (if jsToNumberIsNaN row[rule.index]? then [numberError ri rule row[rule.index]?]
         else []) ∧
    validateData [row] [rule] = rowRuleErrors 0 row rule := by
  constructor
  · simp [rowRuleErrors, hs, ht]
  · have hrow : row ≠ [] := by
      intro hr
      subst hr
      simp [cellTextOf] at hs
    unfold validateData rowErrors
    have hskip : ¬(row.length = 0 ∧ 0 < ([rule] : List ColumnSchema).length) := by
      intro hc
      exact hrow (List.length_eq_zero.mp hc.1)
    simp [hskip]
    exact fun hr => absurd hr hrow

/-- Witness for C3 (amended): the string cell "InvalidAge" fails the
Number check with exactly the recorded error. -/
theorem number_check_isNaN_witness :
    rowRuleErrors 0 [CellValue.str "InvalidAge"] ⟨0, "Age", ColumnType.NUMBER, false⟩
      = (if jsToNumberIsNaN ([CellValue.str "InvalidAge"] : RowData)[(⟨0, "Age", ColumnType.NUMBER, false⟩ : ColumnSchema).index]?
         then [numberError 0 ⟨0, "Age", ColumnType.NUMBER, false⟩
                ([CellValue.str "InvalidAge"] : RowData)[(⟨0, "Age", ColumnType.NUMBER, false⟩ : ColumnSchema).index]?]
         else []) ∧
    validateData [[CellValue.str "InvalidAge"]] [⟨0, "Age", ColumnType.NUMBER, false⟩]
      = rowRuleErrors 0 [CellValue.str "InvalidAge"] ⟨0, "Age", ColumnType.NUMBER, false⟩ :=
  number_check_isNaN 0 [CellValue.str "InvalidAge"] ⟨0, "Age", ColumnType.NUMBER, false⟩
    rfl (by decide)

/-- Counterexample to C4 as stated: a row with zero cells against a
required rule has empty trimmed cell text, yet `validateData` emits no
error at all for it, because the empty row is skipped before any rule is
evaluated. -/
theorem required_counterexample :
    (⟨0, "ID", ColumnType.NUMBER, true⟩ : ColumnSchema).required = true ∧
    cellTextOf (([] : RowData)[(0 : Nat)]?) = "" ∧
    validateData [([] : RowData)] [⟨0, "ID", ColumnType.NUMBER, true⟩] = [] := by
  refine ⟨rfl, rfl, rfl⟩

/-- C4 (amended): for every row that is not skipped by the empty-row
exception (the row has at least one cell, or the schema is empty), a
required rule over a cell with empty trimmed text contributes exactly
the one required-message error — never additionally a type error,
whatever the declared type — and that error appears in the output of
`validateData`. -/
theorem required_shortcircuit (rows : List RowData) (schema : List ColumnSchema)
    (ri j : Nat) (row : RowData) (rule : ColumnSchema)
    (hrow : rows[ri]? = some row) (hrule : schema[j]? = some rule)
    (hskip : ¬(row.length = 0 ∧ 0 < schema.length))
    (hreq : rule.required = true)
    (hempty : cellTextOf row[rule.index]? = "") :
    rowRuleErrors ri row rule = [requiredError ri rule] ∧
    requiredError ri rule ∈ validateData rows schema := by
  have h1 : rowRuleErrors ri row rule = [requiredError ri rule] := by
    simp [rowRuleErrors, hempty, hreq]
  refine ⟨h1, ?_⟩
  exact mem_validateData_of_mem_rowRuleErrors rows schema ri j row rule _
    hrow hrule hskip (by rw [h1]; exact List.mem_singleton.mpr rfl)

/-- Witness for C4 (amended): a one-cell row holding `null` under a
required Number rule yields exactly the required error, present in the
output. -/
theorem required_shortcircuit_witness :
    rowRuleErrors 0 [CellValue.null] ⟨0, "ID", ColumnType.NUMBER, true⟩
      = [requiredError 0 ⟨0, "ID", ColumnType.NUMBER, true⟩] ∧
    requiredError 0 ⟨0, "ID", ColumnType.NUMBER, true⟩
      ∈ validateData [[CellValue.null]] [⟨0, "ID", ColumnType.NUMBER, true⟩] :=
  required_shortcircuit [[CellValue.null]] [⟨0, "ID", ColumnType.NUMBER, true⟩]
    0 0 [CellValue.null] ⟨0, "ID", ColumnType.NUMBER, true⟩
    rfl rfl (by simp) rfl rfl

theorem rowRuleErrors_out_of_range (ri : Nat) (row : RowData)
    (rule : ColumnSchema) (hidx : row.length ≤ rule.index) :
    row[rule.index]? = none ∧
    rowRuleErrors ri row rule
      = if rule.required = true then [requiredError ri rule] else [] := by
  have hnone : row[rule.index]? = none := List.getElem?_eq_none_iff.mpr hidx
  refine ⟨hnone, ?_⟩
  by_cases hreq : rule.required = true
  · simp [rowRuleErrors, hnone, cellTextOf, hreq]
  · simp [rowRuleErrors, hnone, cellTextOf, hreq]

theorem rowRuleErrors_type_fail (ri : Nat) (row : RowData) (rule : ColumnSchema)
    (hs : cellTextOf row[rule.index]? ≠ "")
    (hfail : typeCheckFails rule.type row[rule.index]? = true) :
    (rowRuleErrors ri row rule).length = 1 := by
  cases htype : rule.type with
  | STRING =>
    rw [htype] at hfail
    simp [typeCheckFails] at hfail
  | NUMBER =>
    rw [htype] at hfail
    simp only [typeCheckFails] at hfail
    simp [rowRuleErrors, hs, htype, hfail]
  | BOOLEAN =>
    rw [htype] at hfail
    simp [typeCheckFails] at hfail
    simp [rowRuleErrors, hs, htype, hfail]
  | DATE =>
    rw [htype] at hfail
    simp [typeCheckFails] at hfail
    simp [rowRuleErrors, hs, htype, hfail]

/-- C9: the validator is total on malformed cell values.  An
out-of-range read `row[rule.index]` yields the absent value, is treated
as empty text, and results in either a safe no-op or the required error
— never a fault; and whenever a non-empty cell text fails its Number,
Boolean or Date type check, the rule contributes exactly one
ValidationError, which appears in the returned list rather than being
raised. -/
theorem validateData_never_faults :
    (∀ (ri : Nat) (row : RowData) (rule : ColumnSchema),
        row.length ≤ rule.index →
        row[rule.index]? = none ∧
        rowRuleErrors ri row rule
          = if rule.required = true then [requiredError ri rule] else []) ∧
    (∀ (rows : List RowData) (schema : List ColumnSchema) (ri j : Nat)
        (row : RowData) (rule : ColumnSchema),
        rows[ri]? = some row → schema[j]? = some rule →
        ¬(row.length = 0 ∧ 0 < schema.length) →
        cellTextOf row[rule.index]? ≠ "" →
        typeCheckFails rule.type row[rule.index]? = true →
        (rowRuleErrors ri row rule).length = 1 ∧
        ∀ e ∈ rowRuleErrors ri row rule, e ∈ validateData rows schema) := by
  constructor
  · exact fun ri row rule hidx => rowRuleErrors_out_of_range ri row rule hidx
  · intro rows schema ri j row rule hrow hrule hskip hs hfail
    refine ⟨rowRuleErrors_type_fail ri row rule hs hfail, ?_⟩
    intro e he
    exact mem_validateData_of_mem_rowRuleErrors rows schema ri j row rule e
      hrow hrule hskip he

/-- Witness for C9: an out-of-range read on a one-cell row under a
required rule at index 5 gives the required error, and the failed Number
parse of the cell "abc" puts its error in the output list. -/
theorem validateData_never_faults_witness :
    (([CellValue.str "x"] : RowData)[(⟨5, "ID", ColumnType.NUMBER, true⟩ : ColumnSchema).index]? = none ∧
      rowRuleErrors 0 [CellValue.str "x"] ⟨5, "ID", ColumnType.NUMBER, true⟩
        = if (⟨5, "ID", ColumnType.NUMBER, true⟩ : ColumnSchema).required = true
          then [requiredError 0 ⟨5, "ID", ColumnType.NUMBER, true⟩] else []) ∧
    numberError 0 ⟨0, "Age", ColumnType.NUMBER, false⟩ (some (CellValue.str "abc"))
      ∈ validateData [[CellValue.str "abc"]] [⟨0, "Age", ColumnType.NUMBER, false⟩] := by
  constructor
  · exact validateData_never_faults.1 0 [CellValue.str "x"]
      ⟨5, "ID", ColumnType.NUMBER, true⟩ (by decide)
  · exact (validateData_never_faults.2 [[CellValue.str "abc"]]
      [⟨0, "Age", ColumnType.NUMBER, false⟩] 0 0 [CellValue.str "abc"]
      ⟨0, "Age", ColumnType.NUMBER, false⟩ rfl rfl (by simp) (by decide) (by decide)).2
      (numberError 0 ⟨0, "Age", ColumnType.NUMBER, false⟩ (some (CellValue.str "abc")))
      (by decide)

/-- Witness for C8: with an empty first row and an erroring second row,
the error present in the output does not carry row index 0. -/
theorem empty_row_contributes_no_errors_witness :
    (numberError 1 ⟨0, "ID", ColumnType.NUMBER, true⟩ (some (CellValue.str "abc"))).rowIndex ≠ 0 :=
  empty_row_contributes_no_errors [[], [CellValue.str "abc"]]
    [⟨0, "ID", ColumnType.NUMBER, true⟩] 0 (by simp) (by decide)
    (numberError 1 ⟨0, "ID", ColumnType.NUMBER, true⟩ (some (CellValue.str "abc")))
    (by decide)
